import Mathlib

/-!
# VeriTrade — verification of the hardware-in-the-loop test harness

Shallow embedding of the VeriTrade repository's core:

* the Verilated `hjb_calculator` pricing device
  (`src/obj_dir/Vhjb_calculator___024root__DepSet_h79fa4fff__0.cpp`),
* the synchronous calculation bridge (`src/cpp_wrapper/hjb_wrapper.cpp`),
* the clock-stepped trading-system test harness
  (`src/cpp_testbench/fpga_trading_system_test.cpp`), generic over the
  device under test (whose Verilog model is an external collaborator),
* the latency statistics engine and the symbol-code packing.

Machine integers are modelled as `Nat` with explicit truncation (`% 2 ^ w`)
exactly where the C++ width matters.  IEEE-754 bit patterns are kept as
64-bit naturals; the host-side reinterpretation of a pattern as a `double`
is modelled by an exact rational decoding.
-/

namespace VeriTrade

/-! ## The Verilated `hjb_calculator` device -/

/-- State of the Verilated `hjb_calculator` model.  The fields are exactly
the ports and internal registers declared in
`src/obj_dir/Vhjb_calculator___024root.h` (`clk`, `rst_n`, `calculate_en`,
`mid_price`, `inventory`, `volatility`, `calculation_done`, `optimal_bid`,
`optimal_ask`, `latency_cycles`, internal `state`, `cycle_counter`,
`reservation_price`, `spread`), plus the previous-edge trackers
`__Vtrigprevexpr___TOP__clk__0` / `__Vtrigprevexpr___TOP__rst_n__0` and the
one-time `__Vm_didInit` flag of the Verilator evaluation loop
(`Vhjb_calculator.cpp`, `eval_step`).  All words are `Nat`, kept reduced
modulo their width by the transition function. -/
structure HJBState where
  clk : Bool
  rst_n : Bool
  calculate_en : Bool
  mid_price : Nat
  inventory : Nat
  volatility : Nat
  calculation_done : Bool
  optimal_bid : Nat
  optimal_ask : Nat
  latency_cycles : Nat
  state : Nat
  cycle_counter : Nat
  reservation_price : Nat
  spread : Nat
  prev_clk : Bool
  prev_rst_n : Bool
  didInit : Bool
deriving Repr, DecidableEq

/-- The sequential block of the device, translated line for line from
`Vhjb_calculator___024root___nba_sequent__TOP__0`
(`src/obj_dir/Vhjb_calculator___024root__DepSet_h79fa4fff__0.cpp`,
lines 26-92).  The C code tests the state bits with `4U &`, `2U &`,
`1U &`; subtraction and shifts are 64-bit wrapping (`QData`), the cycle
counter is 32-bit (`IData`).  `VL_SHIFTR_QQI(64,64,32,x,k)` is `x >> k`
and `VL_SHIFTL_QQI(64,64,32,x,k)` is 64-bit truncated `x << k`. -/
def nbaSequent (s : HJBState) : HJBState :=
  if s.rst_n then
    if s.state &&& 4 ≠ 0 then
      if s.state &&& 2 ≠ 0 then
        { s with state := 0 }
      else if s.state &&& 1 ≠ 0 then
        { s with state := 0 }
      else
        let s := { s with calculation_done := true, latency_cycles := s.cycle_counter }
        if !s.calculate_en then { s with state := 0 } else s
    else if s.state &&& 2 ≠ 0 then
      if s.state &&& 1 ≠ 0 then
        { s with
          cycle_counter := (s.cycle_counter + 1) % 2 ^ 32,
          optimal_bid := (s.reservation_price + (2 ^ 64 - s.spread / 2)) % 2 ^ 64,
          optimal_ask := (s.reservation_price + s.spread / 2) % 2 ^ 64,
          state := 4 }
      else
        { s with
          cycle_counter := (s.cycle_counter + 1) % 2 ^ 32,
          spread := s.mid_price / 2 ^ 7,
          state := 3 }
    else if s.state &&& 1 ≠ 0 then
      { s with
        cycle_counter := (s.cycle_counter + 1) % 2 ^ 32,
        reservation_price := (s.mid_price + (2 ^ 64 - (s.inventory * 2 ^ 10) % 2 ^ 64)) % 2 ^ 64,
        state := 2 }
    else
      if s.calculate_en then
        { s with
          calculation_done := false,
          cycle_counter := (s.cycle_counter + 1) % 2 ^ 32,
          state := 1 }
      else
        { s with calculation_done := false, cycle_counter := 0 }
  else
    { s with
      cycle_counter := 0, state := 0, optimal_bid := 0, optimal_ask := 0,
      calculation_done := false, latency_cycles := 0 }

/-- One call of `Vhjb_calculator::eval()`.  Per `eval_step`
(`src/obj_dir/Vhjb_calculator.cpp`) the very first call runs
`eval_static`, which records the current `clk` and `rst_n` as the
previous edge values; then `Vhjb_calculator___024root___eval` fires the
sequential block exactly when one of the two documented triggers holds —
trigger 0 `@(posedge clk)`, trigger 1 `@(negedge rst_n)`
(`Vhjb_calculator___024root__DepSet_h79fa4fff__0__Slow.cpp`,
`dump_triggers`) — and the previous-edge trackers are updated to the
current inputs.  The sequential block never changes `clk` or `rst_n`, so
the trigger loop settles after one pass. -/
def hjbEval (s0 : HJBState) : HJBState :=
  let s := if s0.didInit then s0
           else { s0 with prev_clk := s0.clk, prev_rst_n := s0.rst_n, didInit := true }
  let trig := (s.clk && !s.prev_clk) || (!s.rst_n && s.prev_rst_n)
  let s1 := if trig then nbaSequent s else s
  { s1 with prev_clk := s1.clk, prev_rst_n := s1.rst_n }

/-- A freshly constructed `Vhjb_calculator`.  `ctor_var_reset`
(`Vhjb_calculator___024root__DepSet_h79fa4fff__0__Slow.cpp`) resets every
variable with `VL_SCOPED_RAND_RESET`, which with the default runtime
setting (`Verilated::randReset() = 0`, no `+verilator+rand+reset` plusarg)
yields all-zero values; `__Vm_didInit` starts false. -/
def freshHJB : HJBState :=
  { clk := false, rst_n := false, calculate_en := false,
    mid_price := 0, inventory := 0, volatility := 0,
    calculation_done := false, optimal_bid := 0, optimal_ask := 0,
    latency_cycles := 0, state := 0, cycle_counter := 0,
    reservation_price := 0, spread := 0,
    prev_clk := false, prev_rst_n := false, didInit := false }

/-! ## The synchronous calculation bridge (`src/cpp_wrapper/hjb_wrapper.cpp`) -/

/-- The bridge's global state: the lazily created singleton device handle
`hjb_module` (null before init and after cleanup) and the half-period
counter `main_time`. -/
structure Bridge where
  module : Option HJBState
  main_time : Nat
deriving Repr, DecidableEq

/-- Exact rational value of a finite IEEE-754 binary64 bit pattern; this
models the host-side `union { uint64_t i; double d; }` reinterpretation in
`hjb_calculate` without doing any floating-point arithmetic.  A normal
pattern (biased exponent `e` with `0 < e < 2047`) denotes
`±(2^52 + m) · 2^(e-1075)` and a subnormal one `±m · 2^(-1074)`; the
patterns this development decodes are all finite, so the `e = 2047`
escape (where the function returns the same formula instead of ±∞/NaN)
is never exercised. -/
def decodeF64 (b : Nat) : ℚ :=
  let e : Nat := b / 2 ^ 52 % 2 ^ 11
  let m : Nat := b % 2 ^ 52
  let num : Int := if e = 0 then (m : Int) else ((2 ^ 52 + m) * 2 ^ e : Nat)
  let den : Nat := if e = 0 then 2 ^ 1074 else 2 ^ 1075
  if b / 2 ^ 63 % 2 = 1 then mkRat (-num) den else mkRat num den

/-- The `HJBResult` struct of `hjb_wrapper.cpp`: decoded bid and ask
doubles plus the 32-bit `latency_ns`. -/
structure HJBResult where
  bid : ℚ
  ask : ℚ
  latency_ns : Nat
deriving Repr, DecidableEq

/-- The clock loop of `hjb_init`: `n` iterations of
`clk = !clk; eval(); main_time++` (lines 28-32 of `hjb_wrapper.cpp`).
Each iteration advances one half period. -/
def initToggles : Nat → HJBState → Nat → HJBState × Nat
  | 0, m, t => (m, t)
  | n + 1, m, t => initToggles n (hjbEval { m with clk := !m.clk }) (t + 1)

/-- `hjb_init` (`hjb_wrapper.cpp`, lines 15-38): a no-op when the handle
already exists; otherwise construct the module, drive `rst_n = 0`,
`clk = 0`, `calculate_en = 0`, evaluate, toggle the clock five half
periods with reset held, then set `rst_n = 1` and evaluate once more
(with no clock edge).  Always returns success (0), which the embedding
leaves implicit. -/
def hjb_init (br : Bridge) : Bridge :=
  match br.module with
  | some _ => br
  | none =>
    let m := hjbEval { freshHJB with rst_n := false, clk := false, calculate_en := false }
    let p := initToggles 5 m br.main_time
    let m2 := hjbEval { p.1 with rst_n := true }
    ⟨some m2, p.2⟩

/-- `hjb_cleanup` (`hjb_wrapper.cpp`, lines 79-84): delete the module and
null the handle; `main_time` is a static and survives. -/
def hjb_cleanup (br : Bridge) : Bridge := ⟨none, br.main_time⟩

/-- The wait loop of `hjb_calculate`:
`while (!calculation_done && (main_time - start_time) < 1000)` toggle the
clock, evaluate, advance `main_time`.  The guard `main_time - start_time
< 1000` says the loop body runs at most 1000 times, so the remaining
allowance is the structural fuel.  The device evaluation is the opaque
`eval()` call, passed in as `evalFn` (instantiated with `hjbEval` for the
real device). -/
def calcLoop (evalFn : HJBState → HJBState) : Nat → HJBState → Nat → HJBState × Nat
  | 0, m, t => (m, t)
  | fuel + 1, m, t =>
    if m.calculation_done then (m, t)
    else calcLoop evalFn fuel (evalFn { m with clk := !m.clk }) (t + 1)

/-- `hjb_calculate` (`hjb_wrapper.cpp`, lines 40-77).  Inputs are the
64-bit patterns of the two doubles and the 32-bit pattern of the signed
inventory (the `union` conversions are identities on patterns).  Returns
the updated bridge plus either the filled `HJBResult` (return code 0) or
the failure code `-1`, which the source returns both when
`hjb_module == nullptr` and on timeout. -/
def hjb_calculate (evalFn : HJBState → HJBState) (br : Bridge)
    (mid_price inventory volatility : Nat) : Bridge × Except Int HJBResult :=
  match br.module with
  | none => (br, .error (-1))
  | some m0 =>
    let m1 := evalFn { m0 with
      mid_price := mid_price % 2 ^ 64,
      inventory := inventory % 2 ^ 32,
      volatility := volatility % 2 ^ 64,
      calculate_en := true }
    let p := calcLoop evalFn 1000 m1 br.main_time
    if p.1.calculation_done then
      let r : HJBResult :=
        ⟨decodeF64 p.1.optimal_bid, decodeF64 p.1.optimal_ask,
         p.1.latency_cycles * 4 % 2 ^ 32⟩
      let m2 := evalFn { p.1 with calculate_en := false }
      (⟨some m2, p.2⟩, .ok r)
    else
      (⟨some p.1, p.2⟩, .error (-1))

/-! ## The trading-system test harness
(`src/cpp_testbench/fpga_trading_system_test.cpp`)

The harness drives a `Vfpga_trading_system_tb` model whose generated code
is not part of the repository snapshot; the harness only touches the
declared ports.  The embedding is therefore generic over the device type
and its `eval()` function. -/

/-- The input ports of the trading-system device that the harness drives:
`clk`, `rst_n`, `market_data_valid`, the packed 64-bit `market_data_in`
and the 8-bit `market_data_type`. -/
structure TBIn where
  clk : Bool
  rst_n : Bool
  market_data_valid : Bool
  market_data_in : Nat
  market_data_type : Nat
deriving Repr, DecidableEq

/-- An opaque device model: its `eval()` reads the current inputs and
transforms the hidden device state; the harness polls the
`order_execution_valid` output. -/
structure DUTModel (δ : Type) where
  eval : TBIn → δ → δ
  order_execution_valid : δ → Bool

/-- The `FPGATradingSystemTest` object: current input drive, hidden
device state, and the session counters `cycle_count`, `total_ticks`,
`total_executions`, `total_latency`, `max_latency`, `min_latency`
(all `uint64_t`; they cannot wrap in any feasible session, so they are
plain `Nat`).  `min_latency` starts at `UINT64_MAX`. -/
structure Harness (δ : Type) where
  inputs : TBIn
  dev : δ
  cycle_count : Nat
  total_ticks : Nat
  total_executions : Nat
  total_latency : Nat
  max_latency : Nat
  min_latency : Nat

/-- `clockCycle()` (lines 121-131): drive `clk` low, evaluate, drive
`clk` high, evaluate, increment the cycle counter.  The VCD trace dumps
are a pure side channel and are not modelled. -/
def clockCycle {δ : Type} (M : DUTModel δ) (h : Harness δ) : Harness δ :=
  let i0 := { h.inputs with clk := false }
  let d0 := M.eval i0 h.dev
  let i1 := { i0 with clk := true }
  let d1 := M.eval i1 d0
  { h with inputs := i1, dev := d1, cycle_count := h.cycle_count + 1 }

/-- `n` consecutive `clockCycle()` calls, as in the harness's reset and
settle loops. -/
def runCycles {δ : Type} (M : DUTModel δ) : Nat → Harness δ → Harness δ
  | 0, h => h
  | n + 1, h => runCycles M n (clockCycle M h)

/-- `reset()` (lines 103-119): drive `rst_n = 0`, `clk = 0`,
`market_data_valid = 0`, `market_data_in = 0`, `market_data_type = 0`,
hold for 5 full cycles, then `rst_n = 1` and one more full cycle. -/
def harnessReset {δ : Type} (M : DUTModel δ) (h : Harness δ) : Harness δ :=
  let h := { h with inputs :=
    { clk := false, rst_n := false, market_data_valid := false,
      market_data_in := 0, market_data_type := 0 } }
  let h := runCycles M 5 h
  let h := { h with inputs := { h.inputs with rst_n := true } }
  clockCycle M h

/-- `sendMarketData(symbol_code, price, volume, msg_type)` (lines
133-142): set the message type, pack
`(uint64_t)symbol_code << 32 | price` into `market_data_in`, raise
`market_data_valid`, run exactly one `clockCycle()`, drop
`market_data_valid`, and bump `total_ticks`.  The `volume` argument is
accepted but never driven onto any port.  The `% 2 ^ 32` / `% 2 ^ 8`
truncations mirror the `uint32_t`/`uint8_t` parameter types. -/
def sendMarketData {δ : Type} (M : DUTModel δ)
    (symbol_code price volume msg_type : Nat) (h : Harness δ) : Harness δ :=
  let i := { h.inputs with
    market_data_type := msg_type % 2 ^ 8,
    market_data_in := ((symbol_code % 2 ^ 32) <<< 32) ||| (price % 2 ^ 32),
    market_data_valid := true }
  let h1 := clockCycle M { h with inputs := i }
  { h1 with inputs := { h1.inputs with market_data_valid := false },
            total_ticks := h1.total_ticks + 1 }

/-- The poll loop of `waitForExecution` (lines 144-151):
`while (!order_execution_valid && wait_cycles < max_cycles) clockCycle()`.
The argument is the remaining allowance `max_cycles - wait_cycles`. -/
def waitLoop {δ : Type} (M : DUTModel δ) : Nat → Harness δ → Harness δ
  | 0, h => h
  | n + 1, h =>
    if M.order_execution_valid h.dev then h
    else waitLoop M n (clockCycle M h)

/-- `waitForExecution(max_cycles)` (lines 144-161): poll up to
`max_cycles` cycles; if `order_execution_valid` is then high, record
`latency = cycle_count - start_cycle` into the session accumulators
(`total_latency`, `total_executions`, `max_latency`, `min_latency`);
otherwise return with no update — absence of a response is not an
error. -/
def waitForExecution {δ : Type} (M : DUTModel δ) (max_cycles : Nat)
    (h : Harness δ) : Harness δ :=
  let start := h.cycle_count
  let h1 := waitLoop M max_cycles h
  if M.order_execution_valid h1.dev then
    let latency := h1.cycle_count - start
    let h2 := { h1 with total_latency := h1.total_latency + latency,
                        total_executions := h1.total_executions + 1 }
    let h3 := if h2.max_latency < latency then { h2 with max_latency := latency } else h2
    if latency < h3.min_latency then { h3 with min_latency := latency } else h3
  else h1

/-! ## The statistics engine (`runLatencyBenchmark`, lines 264-287) -/

/-- The latency statistics the benchmark prints for a nonempty sample
list.  `avg_latency` is the exact value of `double(sum)/size` (the
quotient is exact for the sample sets of interest and the claim compares
against the exact `sum / N`). -/
structure LatencyStats where
  count : Nat
  avg_latency : ℚ
  p50_latency : Nat
  p95_latency : Nat
  p99_latency : Nat
  min_latency : Nat
  max_latency : Nat
deriving Repr, DecidableEq

/-- The statistics block of `runLatencyBenchmark` (lines 264-287): if the
sample list is empty report nothing; otherwise sort ascending
(`std::sort`, embedded as insertion sort — any correct ascending sort of
naturals produces the same list) and read off average `sum / N`, the
`N / 2`, `⌊N · 0.95⌋` and `⌊N · 0.99⌋` elements, and front/back.  The
C++ computes the last two indices as `size_t(N * 0.95)` and
`size_t(N * 0.99)` in `double` arithmetic, which equals the exact
`N * 95 / 100` resp. `N * 99 / 100` for every sample count the benchmark
can produce (N ≤ 1000; the double rounding only matters beyond 2^50). -/
def latencyStatistics (latencies : List Nat) : Option LatencyStats :=
  if latencies.isEmpty then none
  else
    let s := latencies.insertionSort (· ≤ ·)
    some
      { count := s.length,
        avg_latency := mkRat s.sum s.length,
        p50_latency := s.getD (s.length / 2) 0,
        p95_latency := s.getD (s.length * 95 / 100) 0,
        p99_latency := s.getD (s.length * 99 / 100) 0,
        min_latency := s.headD 0,
        max_latency := s.getLastD 0 }

/-! ## Symbol codes -/

/-- The packing loop of `FPGATradingSystemTest` (lines 92-101): for the
first `min(length, 4)` characters, `code |= char << (24 - i*8)` —
big-endian, first character in the most significant byte.  Characters
are given by their (unsigned) char codes. -/
def symbolCodeOf (chars : List Nat) : Nat :=
  (List.range (min chars.length 4)).foldl
    (fun code i => code ||| (chars.getD i 0 <<< (24 - i * 8))) 0

/-- `symbolCode` applied to a symbol string, as the harness does for its
symbol table. -/
def symbolCode (s : String) : Nat := symbolCodeOf (s.data.map Char.toNat)

/-- The harness symbol table (line 50). -/
def harnessSymbols : List String := ["AAPL", "GOOGL", "MSFT", "TSLA", "NVDA"]

/-- `initializeSymbolCodes` result: the packed code of every harness
symbol, in order. -/
def harnessSymbolCodes : List Nat := harnessSymbols.map symbolCode

/-- One row of the market-data generator's hard-coded symbol table
(`src/cpp_testbench/market_data_generator.cpp`, lines 51-59); only the
name and entity code matter to the claims, the `double` price and
volatility columns are recorded by their decimal values. -/
structure GenSymbol where
  name : String
  code : Nat
  price : ℚ
  volatility : ℚ
  avg_volume : Nat
  tick_size : Nat

/-- `MarketDataGenerator` symbol table (lines 51-59). -/
def generatorSymbols : List GenSymbol :=
  [⟨"AAPL", 0x41415054, 150, mkRat 2 100, 1000, 1⟩,
   ⟨"GOOGL", 0x474f4f47, 2800, mkRat 25 1000, 500, 1⟩,
   ⟨"MSFT", 0x4d534654, 300, mkRat 2 100, 800, 1⟩,
   ⟨"TSLA", 0x54534c41, 800, mkRat 4 100, 1200, 1⟩,
   ⟨"NVDA", 0x4e564441, 500, mkRat 35 1000, 900, 1⟩]

/-! ## Spec-modelled trading pipeline device -/

/-- Modelled from the spec: the Verilog design `fpga_trading_system_tb`
behind the harness is not under `src/` (only its C++ driver is).  Per the
spec's device contract and reset-determinism property, the device is
edge-triggered with an active-low synchronous reset that deasserts
`executionValid` and clears the cycle-scoped counters, and
`executionValid` asserts only while an execution produced by earlier
valid stimulus is available.  The matching logic itself is out of scope,
so in-flight work is abstracted to a pending count. -/
structure SpecPipeline where
  exec_valid : Bool
  cycle_ctr : Nat
  pending : Nat
deriving Repr, DecidableEq

/-- Modelled from the spec: one evaluation of the abstract pipeline.  The
harness alternates low/high evaluations, so the rising edge is the
evaluation with `clk` high.  Reset clears everything; a valid input
enqueues work; with no pending work the device stays idle with
`executionValid` low. -/
def specPipelineStep (i : TBIn) (d : SpecPipeline) : SpecPipeline :=
  if i.clk = false then d
  else if i.rst_n = false then ⟨false, 0, 0⟩
  else if i.market_data_valid then ⟨d.exec_valid, d.cycle_ctr + 1, d.pending + 1⟩
  else if d.pending = 0 then ⟨false, d.cycle_ctr, 0⟩
  else ⟨true, d.cycle_ctr + 1, d.pending - 1⟩

/-- The spec-modelled pipeline packaged as a harness device model. -/
def specDUT : DUTModel SpecPipeline :=
  ⟨specPipelineStep, SpecPipeline.exec_valid⟩

/-! ## The reset protocol exactly as claim C4 words it for the bridge -/

/-- The bridge init protocol as claim C4 describes it (a second
definition following the claim's words, for comparison with `hjb_init`):
clear all device input signals to zero, hold reset asserted for 5 full
clock cycles, then deassert reset and advance one more full cycle.  On
the wrapper's half-period time base a full cycle is two toggle-evaluate
steps. -/
def hjbInitAsClaimed (br : Bridge) : Bridge :=
  match br.module with
  | some _ => br
  | none =>
    let m := hjbEval { freshHJB with
      rst_n := false, clk := false, calculate_en := false,
      mid_price := 0, inventory := 0, volatility := 0 }
    let p := initToggles 10 m br.main_time
    let m2 := { p.1 with rst_n := true }
    let p2 := initToggles 2 m2 p.2
    ⟨some p2.1, p2.2⟩

/-- The 64-bit IEEE-754 pattern of the double `150.0`. -/
def mid150 : Nat := 0x4062C00000000000

/-- The 64-bit IEEE-754 pattern of the double literal `0.02` (rounded to
nearest, as the C++ compiler does). -/
def vol002 : Nat := 0x3F947AE147AE147B

/-- A device behavior that never asserts `calculation_done`: it leaves
every port and register unchanged except that the done flag stays low.
Used to exercise the timeout path of `hjb_calculate`, which the real
Verilated device never reaches. -/
def evalStuck (s : HJBState) : HJBState := { s with calculation_done := false }

/-- A trivial harness device with no observable state whose
`order_execution_valid` output never asserts. -/
def silentDUT : DUTModel Unit := ⟨fun _ _ => (), fun _ => false⟩

/-- A concrete harness state for exercising the wait loop. -/
def waitDemoHarness : Harness Unit :=
  ⟨⟨false, true, false, 0, 0⟩, (), 0, 0, 0, 0, 0, 2 ^ 64 - 1⟩

/-- The latency sample set of the spec's statistics scenario. -/
def demoLatencies : List Nat := [2, 4, 4, 4, 5, 5, 7, 9]

/-- The bridge state after one successful pricing request on a freshly
initialized device. -/
def bridgeAfterFirstCall : Bridge :=
  (hjb_calculate hjbEval (hjb_init ⟨none, 0⟩) mid150 0 vol002).1

/-- The live module inside `bridgeAfterFirstCall`. -/
def moduleAfterFirstCall : HJBState := bridgeAfterFirstCall.module.getD freshHJB

/-! ## Helper lemmas -/

/-- Bitwise or of a word shifted into the high bits with a value that
fits below it is plain addition — the arithmetic reading of the packing
idiom `(hi << k) | lo`. -/
theorem mul_pow_lor_eq_add (a b k : Nat) (hb : b < 2 ^ k) :
    (a * 2 ^ k) ||| b = a * 2 ^ k + b := by
  apply Nat.eq_of_testBit_eq
  intro i
  rw [Nat.testBit_lor, Nat.mul_comm a (2 ^ k), Nat.testBit_mul_pow_two_add a hb]
  rcases lt_or_ge i k with hik | hik
  · rw [if_pos hik]
    have hf : (2 ^ k * a).testBit i = false := by
      rw [Nat.testBit_mul_pow_two]
      simp [Nat.not_le.mpr hik]
    simp [hf]
  · rw [if_neg (Nat.not_lt.mpr hik)]
    have hbf : b.testBit i = false :=
      Nat.testBit_lt_two_pow (lt_of_lt_of_le hb (Nat.pow_le_pow_right (by norm_num) hik))
    rw [Nat.testBit_mul_pow_two, hbf]
    simp [hik]

/-- `clockCycle` bumps the cycle counter and leaves every session
accumulator alone. -/
theorem clockCycle_counters {δ : Type} (M : DUTModel δ) (h : Harness δ) :
    (clockCycle M h).cycle_count = h.cycle_count + 1
    ∧ (clockCycle M h).total_ticks = h.total_ticks
    ∧ (clockCycle M h).total_executions = h.total_executions
    ∧ (clockCycle M h).total_latency = h.total_latency
    ∧ (clockCycle M h).max_latency = h.max_latency
    ∧ (clockCycle M h).min_latency = h.min_latency :=
  ⟨rfl, rfl, rfl, rfl, rfl, rfl⟩

/-- `runCycles` advances the cycle counter by its argument and leaves
every session accumulator alone. -/
theorem runCycles_counters {δ : Type} (M : DUTModel δ) (n : Nat) :
    ∀ h : Harness δ,
    (runCycles M n h).cycle_count = h.cycle_count + n
    ∧ (runCycles M n h).total_ticks = h.total_ticks
    ∧ (runCycles M n h).total_executions = h.total_executions
    ∧ (runCycles M n h).total_latency = h.total_latency
    ∧ (runCycles M n h).max_latency = h.max_latency
    ∧ (runCycles M n h).min_latency = h.min_latency := by
  induction n with
  | zero => intro h; exact ⟨rfl, rfl, rfl, rfl, rfl, rfl⟩
  | succ n ih =>
    intro h
    obtain ⟨c1, c2, c3, c4, c5, c6⟩ := ih (clockCycle M h)
    have hstep : runCycles M (n + 1) h = runCycles M n (clockCycle M h) := rfl
    refine ⟨?_, ?_, ?_, ?_, ?_, ?_⟩ <;> rw [hstep]
    · rw [c1]; show h.cycle_count + 1 + n = h.cycle_count + (n + 1); omega
    · exact c2
    · exact c3
    · exact c4
    · exact c5
    · exact c6

/-- If the execution-valid output is never observed high along the run,
the poll loop of `waitForExecution` degenerates to plain clocking. -/
theorem waitLoop_of_never_valid {δ : Type} (M : DUTModel δ) (n : Nat) :
    ∀ h : Harness δ,
    (∀ k, M.order_execution_valid ((runCycles M k h).dev) = false) →
    waitLoop M n h = runCycles M n h := by
  induction n with
  | zero => intro h _; rfl
  | succ n ih =>
    intro h hv
    have h0 : M.order_execution_valid h.dev = false := hv 0
    show (if M.order_execution_valid h.dev then h else waitLoop M n (clockCycle M h))
        = runCycles M n (clockCycle M h)
    rw [h0]
    simp only [Bool.false_eq_true, if_false]
    exact ih (clockCycle M h) (fun k => hv (k + 1))

/-! ## Claims about the harness -/

/-- C1: with a device whose output-valid signal never asserts,
`waitForExecution` performs exactly `max_cycles` clock advances — the
cycle counter increases by exactly `max_cycles` — and returns without
touching any latency accumulator; this is a plain return, not an
error. -/
theorem claim_C1 {δ : Type} (M : DUTModel δ) (max_cycles : Nat) (h : Harness δ)
    (hv : ∀ k, M.order_execution_valid ((runCycles M k h).dev) = false) :
    waitForExecution M max_cycles h = runCycles M max_cycles h
    ∧ (waitForExecution M max_cycles h).cycle_count = h.cycle_count + max_cycles
    ∧ (waitForExecution M max_cycles h).total_latency = h.total_latency
    ∧ (waitForExecution M max_cycles h).total_executions = h.total_executions
    ∧ (waitForExecution M max_cycles h).max_latency = h.max_latency
    ∧ (waitForExecution M max_cycles h).min_latency = h.min_latency
    ∧ (waitForExecution M max_cycles h).total_ticks = h.total_ticks := by
  have hl := waitLoop_of_never_valid M max_cycles h hv
  have hw : waitForExecution M max_cycles h = runCycles M max_cycles h := by
    simp only [waitForExecution, hl, hv max_cycles, Bool.false_eq_true, if_false]
  obtain ⟨c1, c2, c3, c4, c5, c6⟩ := runCycles_counters M max_cycles h
  rw [hw]
  exact ⟨rfl, c1, c4, c3, c5, c6, c2⟩

/-- Witness for C1 at the silent device, three polled cycles. -/
theorem claim_C1_witness :
    (∀ k, silentDUT.order_execution_valid
        ((runCycles silentDUT k waitDemoHarness).dev) = false)
    ∧ (waitForExecution silentDUT 3 waitDemoHarness
          = runCycles silentDUT 3 waitDemoHarness
       ∧ (waitForExecution silentDUT 3 waitDemoHarness).cycle_count
          = waitDemoHarness.cycle_count + 3
       ∧ (waitForExecution silentDUT 3 waitDemoHarness).total_latency
          = waitDemoHarness.total_latency
       ∧ (waitForExecution silentDUT 3 waitDemoHarness).total_executions
          = waitDemoHarness.total_executions
       ∧ (waitForExecution silentDUT 3 waitDemoHarness).max_latency
          = waitDemoHarness.max_latency
       ∧ (waitForExecution silentDUT 3 waitDemoHarness).min_latency
          = waitDemoHarness.min_latency
       ∧ (waitForExecution silentDUT 3 waitDemoHarness).total_ticks
          = waitDemoHarness.total_ticks) :=
  ⟨fun _ => rfl, claim_C1 silentDUT 3 waitDemoHarness (fun _ => rfl)⟩

/-- C2: `sendMarketData` packs the entity code into the high 32 bits and
the price into the low 32 bits of the 64-bit input word, sets the
message-kind input, raises the input-valid signal for exactly the one
`clockCycle()` it performs (the device evaluates the low and high phase
of exactly one cycle with the pulse inputs applied), deasserts it
afterwards, and bumps the total-events counter by exactly one regardless
of the device's behavior. -/
theorem claim_C2 {δ : Type} (M : DUTModel δ)
    (symbol_code price volume msg_type : Nat) (h : Harness δ) :
    (sendMarketData M symbol_code price volume msg_type h).inputs.market_data_in
        = (symbol_code % 2 ^ 32) * 2 ^ 32 + price % 2 ^ 32
    ∧ (sendMarketData M symbol_code price volume msg_type h).inputs.market_data_type
        = msg_type % 2 ^ 8
    ∧ (sendMarketData M symbol_code price volume msg_type h).inputs.market_data_valid
        = false
    ∧ (sendMarketData M symbol_code price volume msg_type h).cycle_count
        = h.cycle_count + 1
    ∧ (sendMarketData M symbol_code price volume msg_type h).total_ticks
        = h.total_ticks + 1
    ∧ (sendMarketData M symbol_code price volume msg_type h).total_executions
        = h.total_executions
    ∧ (sendMarketData M symbol_code price volume msg_type h).total_latency
        = h.total_latency
    ∧ (sendMarketData M symbol_code price volume msg_type h).dev
        = M.eval
            ⟨true, h.inputs.rst_n, true,
             (symbol_code % 2 ^ 32) * 2 ^ 32 + price % 2 ^ 32, msg_type % 2 ^ 8⟩
            (M.eval
              ⟨false, h.inputs.rst_n, true,
               (symbol_code % 2 ^ 32) * 2 ^ 32 + price % 2 ^ 32, msg_type % 2 ^ 8⟩
              h.dev) := by
  have hw : ((symbol_code % 2 ^ 32) <<< 32) ||| (price % 2 ^ 32)
      = (symbol_code % 2 ^ 32) * 2 ^ 32 + price % 2 ^ 32 := by
    rw [Nat.shiftLeft_eq]
    exact mul_pow_lor_eq_add _ _ 32 (Nat.mod_lt _ (by norm_num))
  refine ⟨?_, rfl, rfl, rfl, rfl, rfl, rfl, ?_⟩
  · show ((symbol_code % 2 ^ 32) <<< 32) ||| (price % 2 ^ 32) = _
    exact hw
  · show M.eval
        ⟨true, h.inputs.rst_n, true,
         ((symbol_code % 2 ^ 32) <<< 32) ||| (price % 2 ^ 32), msg_type % 2 ^ 8⟩
        (M.eval
          ⟨false, h.inputs.rst_n, true,
           ((symbol_code % 2 ^ 32) <<< 32) ||| (price % 2 ^ 32), msg_type % 2 ^ 8⟩
          h.dev) = _
    rw [hw]

/-- C10: `sendMarketData` never drives its `volume` argument onto any
device input; two calls differing only in volume produce identical
harness states (inputs, device state, cycle counter and every session
counter). -/
theorem claim_C10 {δ : Type} (M : DUTModel δ)
    (symbol_code price volume1 volume2 msg_type : Nat) (h : Harness δ) :
    sendMarketData M symbol_code price volume1 msg_type h
      = sendMarketData M symbol_code price volume2 msg_type h := rfl

/-- C4 (amended): the harness's `reset()` clears the market-data inputs
to zero, holds reset for 5 full cycles, deasserts it and advances one
more cycle (cycle counter +6); on the spec-modelled pipeline the
protocol leaves `executionValid` deasserted and the cycle-scoped counter
zero.  The bridge's `hjb_init`, by contrast, clears only `clk` and
`calculate_en`, holds reset while toggling the clock 5 half-periods
(`main_time = 5`, ending with `clk` high), then deasserts reset with a
single combinational evaluation and no further clock edge; immediately
afterwards the hjb device's `calculation_done` is deasserted and its
`cycle_counter` and `latency_cycles` read zero. -/
theorem claim_C4 :
    (∀ (δ : Type) (M : DUTModel δ) (h : Harness δ),
        (harnessReset M h).inputs.rst_n = true
        ∧ (harnessReset M h).inputs.clk = true
        ∧ (harnessReset M h).inputs.market_data_valid = false
        ∧ (harnessReset M h).inputs.market_data_in = 0
        ∧ (harnessReset M h).inputs.market_data_type = 0
        ∧ (harnessReset M h).cycle_count = h.cycle_count + 6)
    ∧ (∀ h0 : Harness SpecPipeline,
        (harnessReset specDUT h0).dev.exec_valid = false
        ∧ (harnessReset specDUT h0).dev.cycle_ctr = 0)
    ∧ (∃ m, (hjb_init ⟨none, 0⟩).module = some m
        ∧ m.calculation_done = false ∧ m.cycle_counter = 0
        ∧ m.latency_cycles = 0 ∧ m.clk = true
        ∧ (hjb_init ⟨none, 0⟩).main_time = 5) :=
  ⟨fun _ _ _ => ⟨rfl, rfl, rfl, rfl, rfl, rfl⟩,
   fun _ => ⟨rfl, rfl⟩,
   ⟨_, rfl, rfl, rfl, rfl, rfl, rfl⟩⟩

/-- Counterexample to C4 as stated: `hjb_init` does not hold reset for 5
full clock cycles nor advance one more full cycle after deasserting it —
it performs 5 half-period evaluations in total (`main_time = 5`), while
the protocol the claim describes performs 12. -/
theorem claim_C4_cex :
    (hjb_init ⟨none, 0⟩).main_time = 5
    ∧ (hjbInitAsClaimed ⟨none, 0⟩).main_time = 12
    ∧ (hjb_init ⟨none, 0⟩).main_time ≠ (hjbInitAsClaimed ⟨none, 0⟩).main_time := by
  refine ⟨rfl, rfl, ?_⟩
  decide

/-- C6 (amended): entity codes pack up to the first 4 characters of a
symbol big-endian into 32 bits — for 4 in-range character codes the
packed word is exactly `a·2^24 + b·2^16 + c·2^8 + d`.  Under this
packing "AAPL" yields `0x4141504C`, the code the harness computes; the
market-data generator instead hard-codes `0x41415054` (the packing of
"AAPT") for the AAPL row, deviating from the packing rule in its last
byte, while its other four rows agree with the harness packing. -/
theorem claim_C6 :
    symbolCode "AAPL" = 0x4141504C
    ∧ harnessSymbolCodes
        = [0x4141504C, 0x474F4F47, 0x4D534654, 0x54534C41, 0x4E564441]
    ∧ generatorSymbols.map GenSymbol.code
        = [0x41415054, 0x474F4F47, 0x4D534654, 0x54534C41, 0x4E564441]
    ∧ generatorSymbols.map GenSymbol.name
        = ["AAPL", "GOOGL", "MSFT", "TSLA", "NVDA"]
    ∧ symbolCodeOf [0x41, 0x41, 0x50, 0x54] = 0x41415054
    ∧ ∀ a b c d : Nat, a < 256 → b < 256 → c < 256 → d < 256 →
        symbolCodeOf [a, b, c, d] = a * 2 ^ 24 + b * 2 ^ 16 + c * 2 ^ 8 + d := by
  refine ⟨by decide, by decide, by decide, by decide, by decide, ?_⟩
  intro a b c d ha hb hc hd
  have e0 : symbolCodeOf [a, b, c, d]
      = (((0 ||| a <<< 24) ||| b <<< 16) ||| c <<< 8) ||| d := rfl
  rw [e0, Nat.zero_or, Nat.shiftLeft_eq, Nat.shiftLeft_eq, Nat.shiftLeft_eq]
  have s1 : a * 2 ^ 24 ||| b * 2 ^ 16 = a * 2 ^ 24 + b * 2 ^ 16 := by
    refine mul_pow_lor_eq_add a (b * 2 ^ 16) 24 ?_
    calc b * 2 ^ 16 < 256 * 2 ^ 16 := by
          have h16 : (0 : Nat) < 2 ^ 16 := by norm_num
          omega
      _ = 2 ^ 24 := by norm_num
  have s2 : (a * 2 ^ 24 + b * 2 ^ 16) ||| c * 2 ^ 8
      = a * 2 ^ 24 + b * 2 ^ 16 + c * 2 ^ 8 := by
    have heq : a * 2 ^ 24 + b * 2 ^ 16 = (a * 2 ^ 8 + b) * 2 ^ 16 := by ring
    have hlt : c * 2 ^ 8 < 2 ^ 16 := by
      calc c * 2 ^ 8 < 256 * 2 ^ 8 := by
            have h8 : (0 : Nat) < 2 ^ 8 := by norm_num
            omega
        _ = 2 ^ 16 := by norm_num
    rw [heq, mul_pow_lor_eq_add _ _ 16 hlt]
  have s3 : (a * 2 ^ 24 + b * 2 ^ 16 + c * 2 ^ 8) ||| d
      = a * 2 ^ 24 + b * 2 ^ 16 + c * 2 ^ 8 + d := by
    have heq : a * 2 ^ 24 + b * 2 ^ 16 + c * 2 ^ 8
        = (a * 2 ^ 16 + b * 2 ^ 8 + c) * 2 ^ 8 := by ring
    rw [heq, mul_pow_lor_eq_add _ _ 8 hd]
  rw [s1, s2, s3]

/-- Witness for C6's general packing statement at the character codes of
"AAPL". -/
theorem claim_C6_witness :
    ((65 : Nat) < 256 ∧ (65 : Nat) < 256 ∧ (80 : Nat) < 256 ∧ (76 : Nat) < 256)
    ∧ symbolCodeOf [65, 65, 80, 76]
        = 65 * 2 ^ 24 + 65 * 2 ^ 16 + 80 * 2 ^ 8 + 76 :=
  ⟨⟨by decide, by decide, by decide, by decide⟩,
   claim_C6.2.2.2.2.2 65 65 80 76 (by decide) (by decide) (by decide) (by decide)⟩

/-- Counterexample to C6 as stated: packing "AAPL" big-endian yields
`0x4141504C` (the last byte is 'L' = 0x4C), not `0x41415054`; the
`0x41415054` the claim names is the market-data generator's hard-coded
AAPL entry, whose last byte 0x54 is 'T' — the two components disagree on
AAPL's entity code. -/
theorem claim_C6_cex :
    symbolCode "AAPL" = 0x4141504C
    ∧ symbolCode "AAPL" ≠ 0x41415054
    ∧ (generatorSymbols.map GenSymbol.code).getD 0 0 = 0x41415054
    ∧ harnessSymbolCodes.getD 0 0 ≠ (generatorSymbols.map GenSymbol.code).getD 0 0 := by
  refine ⟨by decide, by decide, by decide, by decide⟩

/-! ## Claims about the statistics engine -/

/-- The default value of `getLastD` on a nonempty list is irrelevant. -/
theorem getLastD_default_irrel (a : Nat) (l : List Nat) (d1 d2 : Nat) :
    (a :: l).getLastD d1 = (a :: l).getLastD d2 := by
  rw [List.getLastD_cons, List.getLastD_cons]

/-- The last element of a nonempty list is a member of it. -/
theorem getLastD_mem : ∀ (a : Nat) (t : List Nat), (a :: t).getLastD 0 ∈ a :: t
  | _, [] => by simp [List.getLastD_cons]
  | a, b :: t2 => by
    have ih := getLastD_mem b t2
    have he : (a :: b :: t2).getLastD 0 = (b :: t2).getLastD 0 := by
      rw [List.getLastD_cons, List.getLastD_cons, List.getLastD_cons]
    rw [he]
    exact List.mem_cons_of_mem a ih

/-- In an ascending-sorted list, the head bounds every member below. -/
theorem sorted_headD_le {l : List Nat} (hs : List.Sorted (· ≤ ·) l) :
    ∀ x ∈ l, l.headD 0 ≤ x := by
  cases l with
  | nil => intro x hx; cases hx
  | cons a t =>
    intro x hx
    rcases List.mem_cons.mp hx with rfl | hx
    · exact le_refl _
    · exact (List.sorted_cons.mp hs).1 x hx

/-- In an ascending-sorted list, the last element bounds every member
above. -/
theorem sorted_le_getLastD : ∀ {l : List Nat}, List.Sorted (· ≤ ·) l →
    ∀ x ∈ l, x ≤ l.getLastD 0 := by
  intro l
  induction l with
  | nil => intro _ x hx; cases hx
  | cons a t ih =>
    intro hs x hx
    cases t with
    | nil =>
      rcases List.mem_cons.mp hx with rfl | hx
      · exact le_refl _
      · cases hx
    | cons b t2 =>
      have hs' : List.Sorted (· ≤ ·) (b :: t2) := (List.sorted_cons.mp hs).2
      have hlast : (a :: b :: t2).getLastD 0 = (b :: t2).getLastD 0 := by
        rw [List.getLastD_cons, List.getLastD_cons, List.getLastD_cons]
      rcases List.mem_cons.mp hx with rfl | hx
      · have hab : x ≤ b := (List.sorted_cons.mp hs).1 b (List.mem_cons_self _ _)
        have hbl : b ≤ (b :: t2).getLastD 0 := ih hs' b (List.mem_cons_self _ _)
        rw [hlast]
        exact le_trans hab hbl
      · rw [hlast]
        exact ih hs' x hx

/-- C3: for every nonempty sample list, the statistics engine sorts
ascending and reports the true minimum as `samples[0]`, the true maximum
as `samples[N-1]`, the `N/2` element as P50 and the `⌊N·0.95⌋` /
`⌊N·0.99⌋` elements as P95/P99, with mean `sum / N`; on the sample set
`{2,4,4,4,5,5,7,9}` (N = 8) this yields mean 5, P50 index 4 → value 5,
min 2, max 9 (and P95 = P99 = 9 at index 7). -/
theorem claim_C3 (l : List Nat) (hne : l ≠ []) :
    ∃ st, latencyStatistics l = some st
      ∧ st.min_latency ∈ l ∧ (∀ x ∈ l, st.min_latency ≤ x)
      ∧ st.max_latency ∈ l ∧ (∀ x ∈ l, x ≤ st.max_latency)
      ∧ st.count = l.length
      ∧ st.avg_latency = (l.sum : ℚ) / (l.length : ℚ)
      ∧ st.p50_latency = (l.insertionSort (· ≤ ·)).getD (l.length / 2) 0
      ∧ st.p95_latency = (l.insertionSort (· ≤ ·)).getD (l.length * 95 / 100) 0
      ∧ st.p99_latency = (l.insertionSort (· ≤ ·)).getD (l.length * 99 / 100) 0
      ∧ latencyStatistics demoLatencies = some ⟨8, 5, 5, 9, 9, 2, 9⟩ := by
  have hemp : l.isEmpty = false := by
    cases l with
    | nil => exact absurd rfl hne
    | cons a t => rfl
  have hperm : (l.insertionSort (· ≤ ·)).Perm l := List.perm_insertionSort _ l
  have hsort : List.Sorted (· ≤ ·) (l.insertionSort (· ≤ ·)) :=
    List.sorted_insertionSort _ l
  have hlen : (l.insertionSort (· ≤ ·)).length = l.length := hperm.length_eq
  have hsum : (l.insertionSort (· ≤ ·)).sum = l.sum := hperm.sum_eq
  obtain ⟨a, t, hat⟩ : ∃ a t, l.insertionSort (· ≤ ·) = a :: t := by
    rcases hs0 : l.insertionSort (· ≤ ·) with _ | ⟨a, t⟩
    · rw [hs0] at hperm
      exact absurd (hperm.symm.eq_nil) hne
    · exact ⟨a, t, rfl⟩
  refine ⟨⟨(l.insertionSort (· ≤ ·)).length,
           mkRat (l.insertionSort (· ≤ ·)).sum (l.insertionSort (· ≤ ·)).length,
           (l.insertionSort (· ≤ ·)).getD ((l.insertionSort (· ≤ ·)).length / 2) 0,
           (l.insertionSort (· ≤ ·)).getD ((l.insertionSort (· ≤ ·)).length * 95 / 100) 0,
           (l.insertionSort (· ≤ ·)).getD ((l.insertionSort (· ≤ ·)).length * 99 / 100) 0,
           (l.insertionSort (· ≤ ·)).headD 0,
           (l.insertionSort (· ≤ ·)).getLastD 0⟩,
         ?_, ?_, ?_, ?_, ?_, ?_, ?_, ?_, ?_, ?_, ?_⟩
  · simp only [latencyStatistics, hemp, Bool.false_eq_true, if_false]
  · have hmem : (l.insertionSort (· ≤ ·)).headD 0 ∈ l.insertionSort (· ≤ ·) := by
      rw [hat]
      exact List.mem_cons_self a t
    exact hperm.mem_iff.mp hmem
  · intro x hx
    exact sorted_headD_le hsort x (hperm.mem_iff.mpr hx)
  · have hmem : (l.insertionSort (· ≤ ·)).getLastD 0 ∈ l.insertionSort (· ≤ ·) := by
      rw [hat]
      exact getLastD_mem a t
    exact hperm.mem_iff.mp hmem
  · intro x hx
    exact sorted_le_getLastD hsort x (hperm.mem_iff.mpr hx)
  · exact hlen
  · rw [Rat.mkRat_eq_div, hsum, hlen]
    simp only [Int.cast_natCast]
  · rw [hlen]
  · rw [hlen]
  · rw [hlen]
  · decide

/-- Witness for C3 at the spec's sample set. -/
theorem claim_C3_witness :
    demoLatencies ≠ []
    ∧ ∃ st, latencyStatistics demoLatencies = some st
      ∧ st.min_latency ∈ demoLatencies
      ∧ (∀ x ∈ demoLatencies, st.min_latency ≤ x)
      ∧ st.max_latency ∈ demoLatencies
      ∧ (∀ x ∈ demoLatencies, x ≤ st.max_latency)
      ∧ st.count = demoLatencies.length
      ∧ st.avg_latency = (demoLatencies.sum : ℚ) / (demoLatencies.length : ℚ)
      ∧ st.p50_latency
          = (demoLatencies.insertionSort (· ≤ ·)).getD (demoLatencies.length / 2) 0
      ∧ st.p95_latency
          = (demoLatencies.insertionSort (· ≤ ·)).getD (demoLatencies.length * 95 / 100) 0
      ∧ st.p99_latency
          = (demoLatencies.insertionSort (· ≤ ·)).getD (demoLatencies.length * 99 / 100) 0
      ∧ latencyStatistics demoLatencies = some ⟨8, 5, 5, 9, 9, 2, 9⟩ :=
  ⟨by decide, claim_C3 demoLatencies (by decide)⟩

/-! ## Claims about the synchronous calculation bridge -/

/-- The wait loop of `hjb_calculate` advances `main_time` by at most its
fuel and, as long as the device evaluation never writes the
`calculate_en` input, leaves that input as it found it. -/
theorem calcLoop_bounds (evalFn : HJBState → HJBState)
    (hen : ∀ s, (evalFn s).calculate_en = s.calculate_en) :
    ∀ (fuel : Nat) (m : HJBState) (t : Nat),
      (calcLoop evalFn fuel m t).2 ≤ t + fuel
      ∧ (calcLoop evalFn fuel m t).1.calculate_en = m.calculate_en := by
  intro fuel
  induction fuel with
  | zero => intro m t; exact ⟨Nat.le_add_right t 0, rfl⟩
  | succ n ih =>
    intro m t
    by_cases hd : m.calculation_done = true
    · constructor
      · simp only [calcLoop, hd, if_true]
        exact Nat.le_add_right t (n + 1)
      · simp only [calcLoop, hd, if_true]
    · have hd' : m.calculation_done = false := Bool.eq_false_iff.mpr hd
      obtain ⟨ih1, ih2⟩ := ih (evalFn { m with clk := !m.clk }) (t + 1)
      have hstep : calcLoop evalFn (n + 1) m t
          = calcLoop evalFn n (evalFn { m with clk := !m.clk }) (t + 1) := by
        simp only [calcLoop, hd', Bool.false_eq_true, if_false]
      constructor
      · rw [hstep]
        exact Nat.le_trans ih1 (by omega)
      · rw [hstep, ih2, hen]

/-- C5: for every device behavior (any evaluation function that does not
write the `calculate_en` input back), `hjb_calculate` terminates within
the internal bound — `main_time` advances by at most 1000 — and whenever
a call made on a live handle fails, the failure is the timeout code `-1`
and the device is left with its compute-enable line still asserted and
`calculation_done` still low. -/
theorem claim_C5 (evalFn : HJBState → HJBState)
    (hen : ∀ s, (evalFn s).calculate_en = s.calculate_en)
    (br : Bridge) (mid inv vol : Nat) :
    (hjb_calculate evalFn br mid inv vol).1.main_time ≤ br.main_time + 1000
    ∧ ∀ m0, br.module = some m0 →
        ∀ c : Int, (hjb_calculate evalFn br mid inv vol).2 = .error c →
          c = -1 ∧ ∃ m', (hjb_calculate evalFn br mid inv vol).1.module = some m'
              ∧ m'.calculate_en = true ∧ m'.calculation_done = false := by
  rcases hbr : br.module with _ | m0
  · constructor
    · simp only [hjb_calculate, hbr]
      exact Nat.le_add_right _ _
    · intro m0 hm0
      simp at hm0
  · obtain ⟨hb1, hb2⟩ := calcLoop_bounds evalFn hen 1000
      (evalFn { m0 with mid_price := mid % 2 ^ 64, inventory := inv % 2 ^ 32, volatility := vol % 2 ^ 64, calculate_en := true })
      br.main_time
    have hen1 : (evalFn { m0 with mid_price := mid % 2 ^ 64, inventory := inv % 2 ^ 32, volatility := vol % 2 ^ 64, calculate_en := true }).calculate_en
        = true := hen _
    by_cases hd : (calcLoop evalFn 1000
        (evalFn { m0 with mid_price := mid % 2 ^ 64, inventory := inv % 2 ^ 32, volatility := vol % 2 ^ 64, calculate_en := true })
        br.main_time).1.calculation_done = true
    · constructor
      · simp only [hjb_calculate, hbr, hd, if_true]
        exact hb1
      · intro _ _ c hc
        simp only [hjb_calculate, hbr, hd, if_true] at hc
        cases hc
    · have hd' : (calcLoop evalFn 1000
          (evalFn { m0 with mid_price := mid % 2 ^ 64, inventory := inv % 2 ^ 32, volatility := vol % 2 ^ 64, calculate_en := true })
          br.main_time).1.calculation_done = false := Bool.eq_false_iff.mpr hd
      constructor
      · simp only [hjb_calculate, hbr, hd', Bool.false_eq_true, if_false]
        exact hb1
      · intro _ _ c hc
        simp only [hjb_calculate, hbr, hd', Bool.false_eq_true, if_false] at hc
        have hc1 : c = -1 := by
          cases hc
          rfl
        subst hc1
        refine ⟨rfl, _, ?_, ?_, hd'⟩
        · simp only [hjb_calculate, hbr, hd', Bool.false_eq_true, if_false]
        · rw [hb2, hen1]

/-- Witness for C5 at the never-done device behavior and a live fresh
handle: the call times out after exactly 1000 clock toggles. -/
theorem claim_C5_witness :
    (∀ s, (evalStuck s).calculate_en = s.calculate_en)
    ∧ ((hjb_calculate evalStuck ⟨some freshHJB, 0⟩ 0 0 0).1.main_time
        ≤ (Bridge.mk (some freshHJB) 0).main_time + 1000
      ∧ ∀ m0, (Bridge.mk (some freshHJB) 0).module = some m0 →
          ∀ c : Int, (hjb_calculate evalStuck ⟨some freshHJB, 0⟩ 0 0 0).2 = .error c →
            c = -1 ∧ ∃ m', (hjb_calculate evalStuck ⟨some freshHJB, 0⟩ 0 0 0).1.module = some m'
                ∧ m'.calculate_en = true ∧ m'.calculation_done = false) :=
  ⟨fun _ => rfl, claim_C5 evalStuck (fun _ => rfl) ⟨some freshHJB, 0⟩ 0 0 0⟩

set_option maxRecDepth 10000

set_option exponentiation.threshold 1100

/-- C7: the pricing request `midPrice = 150.0`, `inventory = 0`,
`volatility = 0.02` on a freshly initialized device succeeds within the
1000-cycle bound (10 half-period advances), returns `bid < 150.0 < ask`,
and reports `latencyNanos` equal to the device's `latency_cycles` (= 4)
times the fixed 4 ns clock period — hence a multiple of the period. -/
theorem claim_C7 :
    ∃ r m', (hjb_calculate hjbEval (hjb_init ⟨none, 0⟩) mid150 0 vol002).2 = .ok r
      ∧ (hjb_calculate hjbEval (hjb_init ⟨none, 0⟩) mid150 0 vol002).1.module = some m'
      ∧ r.bid < 150 ∧ (150 : ℚ) < r.ask
      ∧ m'.latency_cycles = 4
      ∧ r.latency_ns = m'.latency_cycles * 4
      ∧ r.latency_ns = 16 ∧ 4 ∣ r.latency_ns
      ∧ (hjb_calculate hjbEval (hjb_init ⟨none, 0⟩) mid150 0 vol002).1.main_time
          = (hjb_init ⟨none, 0⟩).main_time + 10
      ∧ 10 ≤ 1000 := by
  refine ⟨_, _, rfl, rfl, ?_, ?_, rfl, rfl, rfl, ?_, rfl, by norm_num⟩
  · decide
  · decide
  · decide

/-- C8 (amended): a calculation requested before init or after cleanup
fails for that single call only — the bridge state is returned untouched
and a later init/calculate pair succeeds — but the failure code is `-1`,
the very same code `hjb_calculate` returns on timeout, not a distinct
one. -/
theorem claim_C8 :
    (∀ (br : Bridge) (mid inv vol : Nat), br.module = none →
        hjb_calculate hjbEval br mid inv vol = (br, .error (-1)))
    ∧ (hjb_calculate hjbEval (hjb_cleanup (hjb_init ⟨none, 0⟩)) mid150 0 vol002).2
        = .error (-1)
    ∧ (hjb_cleanup (hjb_init ⟨none, 0⟩)).main_time = (hjb_init ⟨none, 0⟩).main_time
    ∧ (∃ r, (hjb_calculate hjbEval (hjb_init (hjb_cleanup (hjb_init ⟨none, 0⟩)))
          mid150 0 vol002).2 = .ok r) := by
  refine ⟨?_, rfl, rfl, ⟨_, rfl⟩⟩
  intro br mid inv vol hbr
  simp only [hjb_calculate, hbr]

/-- Counterexample to C8 as stated: the handle-misuse failure code is not
distinguishable from the timeout failure code — a call on a null handle
returns `-1`, and a timed-out call (exhibited with a device behavior
that never asserts done) returns `-1` as well. -/
theorem claim_C8_cex :
    (hjb_calculate hjbEval ⟨none, 0⟩ mid150 0 vol002).2 = .error (-1)
    ∧ (hjb_calculate evalStuck ⟨some freshHJB, 0⟩ mid150 0 vol002).2 = .error (-1) := by
  exact ⟨rfl, rfl⟩

/-- Witness for C8's universally quantified misuse clause at a concrete
null-handle bridge. -/
theorem claim_C8_witness :
    (Bridge.mk none 7).module = none
    ∧ hjb_calculate hjbEval ⟨none, 7⟩ 1 2 3 = (⟨none, 7⟩, .error (-1)) :=
  ⟨rfl, claim_C8.1 ⟨none, 7⟩ 1 2 3 rfl⟩

/-- A device evaluation with no pending clock or reset edge changes
nothing: the trigger vector is empty, so the sequential block does not
fire and the previous-edge trackers are rewritten with their current
values. -/
theorem hjbEval_no_edge (s : HJBState) (h1 : s.didInit = true)
    (h2 : s.prev_clk = s.clk) (h3 : s.prev_rst_n = s.rst_n) :
    hjbEval s = s := by
  obtain ⟨clk, rstn, en, mp, inv, vol, done, ob, oa, lc, st, cc, rp, sp, pc, pr, di⟩ := s
  simp only at h1 h2 h3
  subst h1
  subst h2
  subst h3
  simp [hjbEval, Bool.and_not_self, Bool.not_and_self]

/-- When the device already reports done, the wait loop of
`hjb_calculate` exits before advancing the clock at all. -/
theorem calcLoop_of_done (evalFn : HJBState → HJBState) (fuel : Nat) (hf : fuel ≠ 0)
    (m : HJBState) (t : Nat) (hd : m.calculation_done = true) :
    calcLoop evalFn fuel m t = (m, t) := by
  cases fuel with
  | zero => exact absurd rfl hf
  | succ n => simp only [calcLoop, hd, if_true]

/-- C9: after a successful call leaves `calculation_done` asserted (the
bridge deasserts `calculate_en` with a combinational evaluation only, so
no clock edge clears the done state), an immediately following
`hjb_calculate` exits its wait loop after zero clock advances —
`main_time` is unchanged — and returns the `optimal_bid`, `optimal_ask`
and latency of the previous request regardless of the new call's
arguments, with the done output still asserted afterwards. -/
theorem claim_C9 (br : Bridge) (m : HJBState) (hm : br.module = some m)
    (hdone : m.calculation_done = true) (hin : m.didInit = true)
    (hck : m.prev_clk = m.clk) (hrs : m.prev_rst_n = m.rst_n)
    (mid_price inventory volatility : Nat) :
    (hjb_calculate hjbEval br mid_price inventory volatility).1.main_time
        = br.main_time
    ∧ (hjb_calculate hjbEval br mid_price inventory volatility).2
        = .ok ⟨decodeF64 m.optimal_bid, decodeF64 m.optimal_ask,
               m.latency_cycles * 4 % 2 ^ 32⟩
    ∧ ∃ m', (hjb_calculate hjbEval br mid_price inventory volatility).1.module
          = some m'
        ∧ m'.calculation_done = true
        ∧ m'.optimal_bid = m.optimal_bid ∧ m'.optimal_ask = m.optimal_ask
        ∧ m'.latency_cycles = m.latency_cycles := by
  have e1 : hjbEval { m with mid_price := mid_price % 2 ^ 64, inventory := inventory % 2 ^ 32, volatility := volatility % 2 ^ 64, calculate_en := true }
      = { m with mid_price := mid_price % 2 ^ 64, inventory := inventory % 2 ^ 32, volatility := volatility % 2 ^ 64, calculate_en := true } :=
    hjbEval_no_edge _ hin hck hrs
  have e2 := calcLoop_of_done hjbEval 1000 (by norm_num)
    { m with mid_price := mid_price % 2 ^ 64, inventory := inventory % 2 ^ 32, volatility := volatility % 2 ^ 64, calculate_en := true } br.main_time hdone
  have e3 : hjbEval { m with mid_price := mid_price % 2 ^ 64, inventory := inventory % 2 ^ 32, volatility := volatility % 2 ^ 64, calculate_en := false }
      = { m with mid_price := mid_price % 2 ^ 64, inventory := inventory % 2 ^ 32, volatility := volatility % 2 ^ 64, calculate_en := false } :=
    hjbEval_no_edge _ hin hck hrs
  rw [hdone] at e1 e2 e3
  refine ⟨?_, ?_, ?_⟩
  · simp only [hjb_calculate, hm, hdone, e1, e2, e3, if_true]
  · simp only [hjb_calculate, hm, hdone, e1, e2, e3, if_true]
  · refine ⟨⟨m.clk, m.rst_n, false, mid_price % 2 ^ 64, inventory % 2 ^ 32, volatility % 2 ^ 64, true, m.optimal_bid, m.optimal_ask, m.latency_cycles, m.state, m.cycle_counter, m.reservation_price, m.spread, m.prev_clk, m.prev_rst_n, m.didInit⟩, ?_, rfl, rfl, rfl, rfl⟩
    simp only [hjb_calculate, hm, hdone, e1, e2, e3, if_true]

/-- Witness for C9 at the bridge state left by the successful C7 call,
with fresh arguments `1, 2, 3`. -/
theorem claim_C9_witness :
    (bridgeAfterFirstCall.module = some moduleAfterFirstCall
     ∧ moduleAfterFirstCall.calculation_done = true
     ∧ moduleAfterFirstCall.didInit = true
     ∧ moduleAfterFirstCall.prev_clk = moduleAfterFirstCall.clk
     ∧ moduleAfterFirstCall.prev_rst_n = moduleAfterFirstCall.rst_n)
    ∧ ((hjb_calculate hjbEval bridgeAfterFirstCall 1 2 3).1.main_time
          = bridgeAfterFirstCall.main_time
       ∧ (hjb_calculate hjbEval bridgeAfterFirstCall 1 2 3).2
          = .ok ⟨decodeF64 moduleAfterFirstCall.optimal_bid,
                 decodeF64 moduleAfterFirstCall.optimal_ask,
                 moduleAfterFirstCall.latency_cycles * 4 % 2 ^ 32⟩
       ∧ ∃ m', (hjb_calculate hjbEval bridgeAfterFirstCall 1 2 3).1.module = some m'
          ∧ m'.calculation_done = true
          ∧ m'.optimal_bid = moduleAfterFirstCall.optimal_bid
          ∧ m'.optimal_ask = moduleAfterFirstCall.optimal_ask
          ∧ m'.latency_cycles = moduleAfterFirstCall.latency_cycles) :=
  ⟨⟨rfl, rfl, rfl, rfl, rfl⟩,
   claim_C9 bridgeAfterFirstCall moduleAfterFirstCall rfl rfl rfl rfl rfl 1 2 3⟩

end VeriTrade
